import Mathlib

/-!
Shallow embedding of the referral-code authorization and rate-limiting core of
src/soccer_bot.py, together with theorems settling the spec's claims about it.

Modelling conventions:
* Timestamps are natural numbers (seconds); durations returned by the duration
  parser are whole numbers of days, and a timedelta of d days added to a
  timestamp adds d * 86400 seconds.
* The comma-joined Text column used_by of the referral_codes table is modelled
  as the list of caller identities it encodes (the code splits it on "," on
  every read and re-joins on write; identities are Telegram ids, which contain
  no comma, so the encoding is a bijection on reachable states).
* The SQLAlchemy row for one code is modelled as an Option ReferralCode: the
  query result for the code's token (none when no row matches).
* SimpleCache's dict is modelled as a function from keys to optional
  (value, expiry) pairs; the mutex only serialises accesses and has no
  sequential content.
* Python str.lower / str.strip are modelled on ASCII characters (all inputs of
  interest here are ASCII), and re.match of the patterns r'(digits)suffix' is
  modelled by splitting off the maximal leading digit run, which is equivalent
  for the suffixes that occur (they start with a letter and hold no digit).
-/

namespace SoccerBot

/-! ### Referral code rows (class ReferralCode, soccer_bot.py lines 59-69) -/

structure ReferralCode where
  code : String
  createdBy : String
  createdAt : Nat
  expiresAt : Nat
  maxUses : Nat
  usedCount : Nat
  isActive : Bool
  usedBy : List String
deriving DecidableEq

/-- create_referral_code (lines 706-732): builds the row with used_count 0 and
is_active True; expires_at = now + duration. The randomly generated token is
passed in as an argument (the random source is external to the embedding). -/
def create_referral_code (code adminId : String) (now : Nat) (durationDays : Nat)
    (maxUses : Nat) : ReferralCode :=
  { code := code, createdBy := adminId, createdAt := now,
    expiresAt := now + durationDays * 86400, maxUses := maxUses,
    usedCount := 0, isActive := true, usedBy := [] }

/-- validate_referral_code (lines 734-756): checks, in source order, row
existence, is_active, expiry (flipping is_active to False and committing when
now > expires_at), used_count >= max_uses, and membership of the caller in
used_by. Returns the (valid, reason) pair and the possibly mutated row. -/
def validate_referral_code (st : Option ReferralCode) (userId : String) (now : Nat) :
    (Bool × String) × Option ReferralCode :=
  match st with
  | none => ((false, "invalid_code"), none)
  | some ref =>
    if ref.isActive = false then ((false, "code_deactivated"), some ref)
    else if now > ref.expiresAt then
      ((false, "code_expired"), some { ref with isActive := false })
    else if ref.usedCount ≥ ref.maxUses then ((false, "code_max_uses"), some ref)
    else if userId ∈ ref.usedBy then ((false, "code_used"), some ref)
    else ((true, "valid"), some ref)

/-- use_referral_code (lines 758-777): when the row exists, unconditionally
increments used_count, appends the caller to used_by, and flips is_active to
False once used_count >= max_uses; returns True. Returns False when no row. -/
def use_referral_code (st : Option ReferralCode) (userId : String) :
    Bool × Option ReferralCode :=
  match st with
  | none => (false, none)
  | some ref =>
    let newCount := ref.usedCount + 1
    let newUsedBy := ref.usedBy ++ [userId]
    let newActive := if newCount ≥ ref.maxUses then false else ref.isActive
    (true, some { ref with usedCount := newCount, usedBy := newUsedBy,
                           isActive := newActive })

/-- A redemption attempt as wired in the enter_code handler (lines 937-987),
the only caller of use_referral_code: validate first, and only on a valid
result call use_referral_code. -/
def redeem_code (st : Option ReferralCode) (userId : String) (now : Nat) :
    (Bool × String) × Option ReferralCode :=
  let v := validate_referral_code st userId now
  if v.1.1 then
    let u := use_referral_code v.2 userId
    ((u.1, v.1.2), u.2)
  else v

/-- The store operations a sequence of clients can perform on one code's row. -/
inductive RefOp where
  | validate (userId : String) (now : Nat)
  | redeem (userId : String) (now : Nat)
deriving DecidableEq

def applyOp (st : Option ReferralCode) : RefOp → Option ReferralCode
  | .validate u t => (validate_referral_code st u t).2
  | .redeem u t => (redeem_code st u t).2

def execOps (st : Option ReferralCode) (ops : List RefOp) : Option ReferralCode :=
  ops.foldl applyOp st

/-! ### SimpleCache (lines 505-529) and the rate limiter (lines 633-639) -/

structure SimpleCache (α : Type) where
  cache : String → Option (α × Nat)
  ttl : Nat

/-- SimpleCache(ttl_seconds): fresh instance with an empty backing dict. -/
def SimpleCache.mkEmpty (α : Type) (ttl : Nat) : SimpleCache α :=
  ⟨fun _ => none, ttl⟩

/-- SimpleCache.get (lines 511-519): a live entry (now < expiry) is returned;
an entry at or past its expiry is deleted from the dict and None is returned. -/
def SimpleCache.get {α : Type} (c : SimpleCache α) (key : String) (now : Nat) :
    Option α × SimpleCache α :=
  match c.cache key with
  | none => (none, c)
  | some (v, expiry) =>
    if now < expiry then (some v, c)
    else (none, { c with cache := fun k => if k = key then none else c.cache k })

/-- SimpleCache.set (lines 521-525): stores (value, now + ttl), the ttl
defaulting to the instance ttl. -/
def SimpleCache.set {α : Type} (c : SimpleCache α) (key : String) (v : α)
    (now : Nat) (ttlArg : Option Nat) : SimpleCache α :=
  let t := ttlArg.getD c.ttl
  { c with cache := fun k => if k = key then some (v, now + t) else c.cache k }

/-- SimpleCache.delete (lines 527-529). -/
def SimpleCache.del {α : Type} (c : SimpleCache α) (key : String) : SimpleCache α :=
  { c with cache := fun k => if k = key then none else c.cache k }

/-- check_rate_limit (lines 633-639): reads the counter (None coerced to 0 by
the Python expression cache.get(key) or 0), denies when count >= max_requests,
otherwise re-sets the counter to count + 1 with a fresh ttl of 60 seconds. -/
def check_rate_limit (c : SimpleCache Nat) (telegramId : String) (now : Nat)
    (maxRequests : Nat := 30) : Bool × SimpleCache Nat :=
  let key := "rate_" ++ telegramId
  let g := SimpleCache.get c key now
  let count := g.1.getD 0
  if count ≥ maxRequests then (false, g.2)
  else (true, SimpleCache.set g.2 key (count + 1) now (some 60))

/-- The live counter value check_rate_limit would read for a key at a time. -/
def liveCount (c : SimpleCache Nat) (key : String) (now : Nat) : Nat :=
  match c.cache key with
  | none => 0
  | some (v, e) => if now < e then v else 0

/-- A sequence of requests from one identity at the given times. -/
def runRequests (c : SimpleCache Nat) (telegramId : String) (times : List Nat)
    (lim : Nat) : List Bool × SimpleCache Nat :=
  match times with
  | [] => ([], c)
  | t :: ts =>
    let r := check_rate_limit c telegramId t lim
    let rest := runRequests r.2 telegramId ts lim
    (r.1 :: rest.1, rest.2)

/-- Modelled from the spec: a classic fixed-window rate limiter whose counting
window ends windowSeconds after the first request of the window, for comparison
with check_rate_limit (the spec claims check_rate_limit implements this). -/
structure FixedWindow where
  windowStart : Nat
  count : Nat
deriving DecidableEq

/-- Modelled from the spec: one request against the fixed-window limiter. A
request more than windowSeconds after the window's first request starts a
fresh count; inside the window the count is compared against the limit. -/
def fixedWindowStep (st : Option FixedWindow) (now lim windowSeconds : Nat) :
    Bool × Option FixedWindow :=
  match st with
  | none => if 0 < lim then (true, some ⟨now, 1⟩) else (false, some ⟨now, 0⟩)
  | some w =>
    if now > w.windowStart + windowSeconds then
      if 0 < lim then (true, some ⟨now, 1⟩) else (false, some ⟨now, 0⟩)
    else if w.count ≥ lim then (false, some w)
    else (true, some ⟨w.windowStart, w.count + 1⟩)

/-- Modelled from the spec: a sequence of requests against the fixed window. -/
def runFixedWindow (st : Option FixedWindow) (times : List Nat)
    (lim windowSeconds : Nat) : List Bool × Option FixedWindow :=
  match times with
  | [] => ([], st)
  | t :: ts =>
    let r := fixedWindowStep st t lim windowSeconds
    let rest := runFixedWindow r.2 ts lim windowSeconds
    (r.1 :: rest.1, rest.2)

/-! ### Duration parsing and formatting (lines 669-704) -/

/-- Value of a decimal digit character, as Python int() computes it. -/
def digitVal (c : Char) : Nat := c.toNat - 48

/-- Python int() on a (nonempty, all-digit) string, on its character list. -/
def listToNat (l : List Char) : Nat := l.foldl (fun n c => n * 10 + digitVal c) 0

/-- re.match of r'(digits)suffix' anchored on the whole string, for a suffix
that starts with a letter and holds no digit: splits off the maximal leading
digit run and requires the remainder to equal the suffix. -/
def matchIntSuffix (l sfx : List Char) : Option Nat :=
  let ds := l.takeWhile Char.isDigit
  if ds.isEmpty then none
  else if l.drop ds.length = sfx then some (listToNat ds) else none

/-- The pattern table of parse_duration in source order, each with its
days conversion; the hour patterns divide by 24 (int(x)/24 then int(days)
truncates, i.e. floor for non-negative values). -/
def durationPatterns : List (List Char × (Nat → Nat)) :=
  [ (['m'], fun x => x * 30),
    (['m', 'o'], fun x => x * 30),
    (['m', 'o', 'n', 't', 'h'], fun x => x * 30),
    (['m', 'o', 'n', 't', 'h', 's'], fun x => x * 30),
    (['y'], fun x => x * 365),
    (['y', 'r'], fun x => x * 365),
    (['y', 'e', 'a', 'r'], fun x => x * 365),
    (['y', 'e', 'a', 'r', 's'], fun x => x * 365),
    (['d'], fun x => x),
    (['d', 'a', 'y'], fun x => x),
    (['d', 'a', 'y', 's'], fun x => x),
    (['h'], fun x => x / 24),
    (['h', 'r'], fun x => x / 24),
    (['h', 'o', 'u', 'r'], fun x => x / 24),
    (['h', 'o', 'u', 'r', 's'], fun x => x / 24) ]

/-- Python str.lower on the character list (ASCII case mapping). -/
def pyLower (l : List Char) : List Char := l.map Char.toLower

/-- Python str.strip on the character list. -/
def pyStrip (l : List Char) : List Char :=
  ((l.dropWhile Char.isWhitespace).reverse.dropWhile Char.isWhitespace).reverse

/-- parse_duration (lines 669-693): lowercase and strip the input, try the
patterns in table order, fall back to 1 day when none matches. The result is
the whole number of days of the returned timedelta. -/
def parse_duration (s : String) : Nat :=
  let t := pyStrip (pyLower s.data)
  match durationPatterns.findSome? (fun p => (matchIntSuffix t p.1).map p.2) with
  | some d => d
  | none => 1

/-- format_duration (lines 695-704): renders days // 365 years when at least
365 days, else days // 30 months when at least 30 days, else days. -/
def format_duration (days : Nat) : String :=
  if days ≥ 365 then Nat.repr (days / 365) ++ "y"
  else if days ≥ 30 then Nat.repr (days / 30) ++ "m"
  else Nat.repr days ++ "d"

/-- Structural decimal digit list of a natural number, used to reason about
the strings Nat.repr produces inside format_duration's f-strings. -/
def natDigits (n : Nat) : List Char :=
  if _h : n < 10 then [Nat.digitChar n]
  else natDigits (n / 10) ++ [Nat.digitChar (n % 10)]
decreasing_by exact Nat.div_lt_self (by omega) (by omega)

/-! ### Invariant and sample inputs -/

/-- Sample row for exercising the double-redemption theorem: maxUses = 2, one
use already consumed by caller A, code still active and unexpired. -/
def doubleDipSample : ReferralCode :=
  { code := "Q1Q1Q1Q1", createdBy := "9", createdAt := 0, expiresAt := 100,
    maxUses := 2, usedCount := 1, isActive := true, usedBy := ["A"] }

/-- Sample rate-limit cache holding a live counter of 1 for identity u,
stored at time 0 with the 60-second TTL. -/
def rlSample : SimpleCache Nat :=
  SimpleCache.set (SimpleCache.mkEmpty Nat 60) "rate_u" 1 0 (some 60)

/-- Sample cache for the expiry theorem: value 42 stored at time 0 with a
TTL of 1 second, so the entry expires at time 1. -/
def ttlSample : SimpleCache Nat :=
  SimpleCache.set (SimpleCache.mkEmpty Nat 60) "k" 42 0 (some 1)

/-- The data-model invariant usedCount ≤ maxUses on an optional row. -/
def codeInv (st : Option ReferralCode) : Prop :=
  ∀ ref, st = some ref → ref.usedCount ≤ ref.maxUses

/-- Sample fresh code (duration one day, maxUses 2) for the C1 witness. -/
def c1SampleCode : ReferralCode := create_referral_code "W1W1W1W1" "9" 0 1 2

/-- Sample operation sequence for the C1 witness: three redemption attempts
by distinct callers (one more than capacity) and a trailing validation. -/
def c1SampleOps : List RefOp :=
  [RefOp.redeem "A" 0, RefOp.redeem "B" 0, RefOp.redeem "C" 0,
   RefOp.validate "D" 0]

/-- The C3 end-to-end scenario, step 1: a code generated with a one-day
duration and maxUses = 2 is redeemed by caller A at time 0. -/
def c3AfterA : (Bool × String) × Option ReferralCode :=
  redeem_code (some (create_referral_code "SCEN1234" "9" 0 (parse_duration "1d") 2))
    "A" 0

/-- The C3 scenario, step 2: caller B redeems the same code at time 0. -/
def c3AfterB : (Bool × String) × Option ReferralCode := redeem_code c3AfterA.2 "B" 0

/-- The C3 scenario, step 3: caller C attempts a validation at time 0. -/
def c3ValC : (Bool × String) × Option ReferralCode :=
  validate_referral_code c3AfterB.2 "C" 0

/-! ### Theorems about the referral code store -/

/-- C2 (counterexample): at the instant now = expiresAt the code still
validates as usable, contradicting the claim that validity requires the
current time to be strictly before expiresAt. Concrete input: an active,
unused code expiring at time 100, validated by a fresh caller at time 100. -/
theorem c2_boundary_counterexample :
    (validate_referral_code
      (some { code := "ABCD1234", createdBy := "9", createdAt := 0,
              expiresAt := 100, maxUses := 1, usedCount := 0,
              isActive := true, usedBy := [] }) "7" 100).1.1 = true ∧
    ¬ ((100 : Nat) < 100) := by
  constructor
  · decide
  · omega

/-- C2 (amended): validate_referral_code returns valid exactly when the code
is active, the current time is at most expiresAt (the code expires only
strictly after expiresAt), usedCount is strictly below maxUses, and the
caller is not in the redeemed set. -/
theorem c2_validate_iff (ref : ReferralCode) (userId : String) (now : Nat) :
    (validate_referral_code (some ref) userId now).1.1 = true ↔
      (ref.isActive = true ∧ now ≤ ref.expiresAt ∧
        ref.usedCount < ref.maxUses ∧ userId ∉ ref.usedBy) := by
  simp only [validate_referral_code]
  split_ifs with h1 h2 h3 h4 <;> simp_all

/-- C3 (counterexample): in the end-to-end scenario (code generated with a
one-day duration and maxUses = 2, redeemed by A then by B), caller C's
subsequent validation fails, but its reason is not code_max_uses as the claim
states. -/
theorem c3_reason_counterexample :
    c3ValC.1.1 = false ∧ c3ValC.1.2 ≠ "code_max_uses" := by
  decide

/-- C3 (amended): end-to-end scenario with duration one day and maxUses = 2:
A redeems successfully, B redeems successfully leaving the code with
usedCount 2 and active flag false, and caller C's subsequent validation fails
with reason code_deactivated, because the first check of
validate_referral_code is the active flag, which B's capacity-reaching
redemption cleared before the max-uses check can be reached. -/
theorem c3_scenario_deactivated :
    c3AfterA.1.1 = true ∧ c3AfterB.1.1 = true ∧
    c3AfterB.2 = some { code := "SCEN1234", createdBy := "9", createdAt := 0,
                        expiresAt := 86400, maxUses := 2, usedCount := 2,
                        isActive := false, usedBy := ["A", "B"] } ∧
    c3ValC.1 = (false, "code_deactivated") := by
  decide

/-- C4 (counterexample): with maxUses = 1, a caller who successfully redeemed
the code and tries again is rejected with reason code_deactivated, not
code_used as the claim states for every maxUses: the first redemption reached
the cap and cleared the active flag, and the deactivation check runs first. -/
theorem c4_maxuses_one_counterexample :
    (redeem_code (some (create_referral_code "Z9Z9Z9Z9" "9" 0 1 1)) "A" 0).1.1
      = true ∧
    (redeem_code
      (redeem_code (some (create_referral_code "Z9Z9Z9Z9" "9" 0 1 1)) "A" 0).2
      "A" 0).1.1 = false ∧
    (redeem_code
      (redeem_code (some (create_referral_code "Z9Z9Z9Z9" "9" 0 1 1)) "A" 0).2
      "A" 0).1.2 = "code_deactivated" ∧
    (redeem_code
      (redeem_code (some (create_referral_code "Z9Z9Z9Z9" "9" 0 1 1)) "A" 0).2
      "A" 0).1.2 ≠ "code_used" := by
  decide

/-- C4 (amended): a redemption attempt by a caller already recorded in the
code's redeemed set always fails and never changes usedCount (it is never
silently repeated); the reported reason is code_used precisely when the code
is still active, unexpired and below its use cap (in particular whenever
maxUses ≥ 2 and capacity remains), while for maxUses = 1 the earlier
redemption deactivated the code and the reason is code_deactivated. -/
theorem c4_no_double_redeem (ref : ReferralCode) (u : String) (now : Nat)
    (hmem : u ∈ ref.usedBy) :
    (redeem_code (some ref) u now).1.1 = false ∧
    (∀ r, (redeem_code (some ref) u now).2 = some r →
      r.usedCount = ref.usedCount) ∧
    (ref.isActive = true → now ≤ ref.expiresAt → ref.usedCount < ref.maxUses →
      (redeem_code (some ref) u now).1.2 = "code_used") := by
  simp only [redeem_code, validate_referral_code]
  split_ifs with h1 h2 h3 h4 <;> simp_all

/-- Witness for C4's amended theorem at a concrete input: caller A, already
in the redeemed set, attempts to redeem a second time at time 50. -/
theorem c4_no_double_redeem_witness :
    ("A" ∈ doubleDipSample.usedBy) ∧
    ((redeem_code (some doubleDipSample) "A" 50).1.1 = false ∧
      (∀ r, (redeem_code (some doubleDipSample) "A" 50).2 = some r →
        r.usedCount = doubleDipSample.usedCount) ∧
      (doubleDipSample.isActive = true → 50 ≤ doubleDipSample.expiresAt →
        doubleDipSample.usedCount < doubleDipSample.maxUses →
        (redeem_code (some doubleDipSample) "A" 50).1.2 = "code_used")) :=
  ⟨by decide, c4_no_double_redeem doubleDipSample "A" 50 (by decide)⟩

/-! ### Theorems about the TTL cache and the rate limiter -/

/-- C5 (counterexample): check_rate_limit does not implement the spec's
fixed window anchored at the first request of the window. With limit 2 and
requests at times 0, 50 and 70, the code denies the third request (each
allowed request re-armed the entry with a fresh 60-second TTL, so the counter
was still alive at 70), while the fixed-window model of the spec admits it
(70 is more than 60 seconds after the window's first request at 0). -/
theorem c5_not_fixed_window_counterexample :
    (runRequests (SimpleCache.mkEmpty Nat 60) "u" [0, 50, 70] 2).1
      = [true, true, false] ∧
    (runFixedWindow none [0, 50, 70] 2 60).1 = [true, true, true] := by
  decide

/-- The counter value check_rate_limit reads (a missing or expired entry
coerced to 0) is the live count. -/
theorem get_getD_eq_liveCount (c : SimpleCache Nat) (key : String) (now : Nat) :
    (SimpleCache.get c key now).1.getD 0 = liveCount c key now := by
  simp only [SimpleCache.get, liveCount]
  cases hc : c.cache key with
  | none => rfl
  | some p =>
    obtain ⟨v, e⟩ := p
    by_cases he : now < e <;> simp [he]

/-- C5 (amended): the counting window ends 60 seconds after the most recent
allowed request of the window, not after its first request: every allowed
request re-sets the counter entry with expiry now + 60, so later in-window
allowed requests extend the window; and an entry whose expiry has passed is
equivalent to an absent one, so such a request starts a fresh count. -/
theorem c5_window_from_last_allowed (c : SimpleCache Nat) (id : String)
    (now lim : Nat) :
    (liveCount c ("rate_" ++ id) now < lim →
      ((check_rate_limit c id now lim).2).cache ("rate_" ++ id)
        = some (liveCount c ("rate_" ++ id) now + 1, now + 60)) ∧
    (∀ v e, c.cache ("rate_" ++ id) = some (v, e) → e ≤ now →
      check_rate_limit c id now lim
        = check_rate_limit (SimpleCache.del c ("rate_" ++ id)) id now lim) := by
  constructor
  · intro hlt
    simp only [check_rate_limit, get_getD_eq_liveCount]
    rw [if_neg (by omega)]
    simp [SimpleCache.set]
  · intro v e hc he
    have h1 : SimpleCache.get c ("rate_" ++ id) now
        = (none, SimpleCache.del c ("rate_" ++ id)) := by
      simp only [SimpleCache.get, SimpleCache.del, hc]
      rw [if_neg (by omega)]
    have h2 : SimpleCache.get (SimpleCache.del c ("rate_" ++ id)) ("rate_" ++ id) now
        = (none, SimpleCache.del c ("rate_" ++ id)) := by
      simp [SimpleCache.get, SimpleCache.del]
    simp only [check_rate_limit, h1, h2]

/-- Witness for C5's amended theorem: both parts applied at the sample cache,
identity u, limit 5; the first at time 10 (entry live, count 1 below the
limit), the second at time 70 (entry expired). -/
theorem c5_window_from_last_allowed_witness :
    (liveCount rlSample ("rate_" ++ "u") 10 < 5 ∧
      ((check_rate_limit rlSample "u" 10 5).2).cache ("rate_" ++ "u")
        = some (liveCount rlSample ("rate_" ++ "u") 10 + 1, 10 + 60)) ∧
    ((rlSample.cache ("rate_" ++ "u") = some (1, 60) ∧ 60 ≤ 70) ∧
      check_rate_limit rlSample "u" 70 5
        = check_rate_limit (SimpleCache.del rlSample ("rate_" ++ "u")) "u" 70 5) :=
  ⟨⟨by decide, (c5_window_from_last_allowed rlSample "u" 10 5).1 (by decide)⟩,
   ⟨⟨by decide, by decide⟩,
    (c5_window_from_last_allowed rlSample "u" 70 5).2 1 60 (by decide) (by decide)⟩⟩

/-- C7: a get at or after the entry's expiry time returns absent exactly like
a miss, removes the stale entry from the backing map, and therefore a later
get of the same key is a plain miss that changes nothing: the expired entry
survived at most the one read. -/
theorem c7_expired_get_is_miss {α : Type} (c : SimpleCache α) (key : String)
    (v : α) (e now nowLater : Nat) (hc : c.cache key = some (v, e))
    (hexp : e ≤ now) :
    (SimpleCache.get c key now).1 = none ∧
    ((SimpleCache.get c key now).2).cache key = none ∧
    SimpleCache.get ((SimpleCache.get c key now).2) key nowLater
      = (none, (SimpleCache.get c key now).2) := by
  simp only [SimpleCache.get, hc]
  rw [if_neg (by omega)]
  simp

/-- Witness for C7 at a concrete input: the entry expiring at time 1 is read
at time 1 and again at time 2. -/
theorem c7_expired_get_is_miss_witness :
    (ttlSample.cache "k" = some (42, 1) ∧ 1 ≤ 1) ∧
    ((SimpleCache.get ttlSample "k" 1).1 = none ∧
      ((SimpleCache.get ttlSample "k" 1).2).cache "k" = none ∧
      SimpleCache.get ((SimpleCache.get ttlSample "k" 1).2) "k" 2
        = (none, (SimpleCache.get ttlSample "k" 1).2)) :=
  ⟨⟨by decide, by decide⟩,
   c7_expired_get_is_miss ttlSample "k" 42 1 1 2 (by decide) (by decide)⟩

/-! ### The usage-cap invariant (C1) -/

theorem codeInv_validate (st : Option ReferralCode) (u : String) (t : Nat)
    (h : codeInv st) : codeInv (validate_referral_code st u t).2 := by
  cases st with
  | none => simpa [validate_referral_code] using h
  | some ref =>
    intro r hr
    have href := h ref rfl
    simp only [validate_referral_code] at hr
    split_ifs at hr <;>
      (try dsimp only at hr) <;>
      (injection hr with hr2; subst hr2; (try dsimp only); omega)

theorem codeInv_redeem (st : Option ReferralCode) (u : String) (t : Nat)
    (h : codeInv st) : codeInv (redeem_code st u t).2 := by
  cases st with
  | none =>
    intro r hr
    simp [redeem_code, validate_referral_code] at hr
  | some ref =>
    intro r hr
    have href := h ref rfl
    simp only [redeem_code, validate_referral_code, use_referral_code] at hr
    split_ifs at hr <;>
      first
        | (simp_all; done)
        | ((try dsimp only at hr); injection hr with hr2; subst hr2;
            (try dsimp only); omega)

theorem codeInv_execOps (st : Option ReferralCode) (ops : List RefOp)
    (h : codeInv st) : codeInv (execOps st ops) := by
  induction ops generalizing st with
  | nil => simpa [execOps] using h
  | cons op ops ih =>
    have hstep : codeInv (applyOp st op) := by
      cases op with
      | validate u t => exact codeInv_validate st u t h
      | redeem u t => exact codeInv_redeem st u t h
    simpa [execOps, List.foldl_cons] using ih (applyOp st op) hstep

theorem redeem_full_fails (ref : ReferralCode) (u : String) (t : Nat)
    (hfull : ref.maxUses ≤ ref.usedCount) :
    (redeem_code (some ref) u t).1.1 = false := by
  simp only [redeem_code, validate_referral_code]
  split_ifs <;> simp_all

/-- C1: starting from any row satisfying usedCount ≤ maxUses (as every freshly
created code does), the invariant holds after any sequence of validate and
redemption operations, and once usedCount has reached maxUses every further
redemption attempt fails, so a redemption never pushes usedCount past
maxUses. -/
theorem c1_used_count_invariant (ref0 : ReferralCode) (ops : List RefOp)
    (h : ref0.usedCount ≤ ref0.maxUses) :
    (∀ ref, execOps (some ref0) ops = some ref →
      ref.usedCount ≤ ref.maxUses) ∧
    (∀ ref u t, execOps (some ref0) ops = some ref →
      ref.usedCount = ref.maxUses → (redeem_code (some ref) u t).1.1 = false) := by
  constructor
  · exact codeInv_execOps (some ref0) ops (fun r hr => by cases hr; exact h)
  · intro ref u t _ hfull
    exact redeem_full_fails ref u t (le_of_eq hfull.symm)

/-- Witness for C1 at a concrete input: a fresh two-use code run through
three redemption attempts and a validation. -/
theorem c1_used_count_invariant_witness :
    c1SampleCode.usedCount ≤ c1SampleCode.maxUses ∧
    ((∀ ref, execOps (some c1SampleCode) c1SampleOps = some ref →
        ref.usedCount ≤ ref.maxUses) ∧
      (∀ ref u t, execOps (some c1SampleCode) c1SampleOps = some ref →
        ref.usedCount = ref.maxUses →
        (redeem_code (some ref) u t).1.1 = false)) :=
  ⟨by decide, c1_used_count_invariant c1SampleCode c1SampleOps (by decide)⟩

/-! ### Exact admission count per window (C6) -/

/-- Core induction for C6: from a cache whose counter for the identity holds
k ≤ lim and expires at t + 60, m further requests at time t yield exactly
lim - k admissions followed by denials, and leave the counter at
min (k + m) lim with the same expiry. -/
theorem runRequests_same_time (id : String) (lim t : Nat) :
    ∀ (m k : Nat) (c : SimpleCache Nat),
      c.cache ("rate_" ++ id) = some (k, t + 60) → k ≤ lim →
      (runRequests c id (List.replicate m t) lim).1
        = List.replicate (min m (lim - k)) true
            ++ List.replicate (m - (lim - k)) false ∧
      ((runRequests c id (List.replicate m t) lim).2).cache ("rate_" ++ id)
        = some (min (k + m) lim, t + 60) := by
  intro m
  induction m with
  | zero =>
    intro k c hc hk
    refine ⟨by simp [runRequests], ?_⟩
    simp only [List.replicate, runRequests]
    rw [hc]
    congr 2
    omega
  | succ m ih =>
    intro k c hc hk
    have hget : SimpleCache.get c ("rate_" ++ id) t = (some k, c) := by
      simp [SimpleCache.get, hc]
    rw [List.replicate_succ]
    by_cases hfull : lim ≤ k
    · have hstep : check_rate_limit c id t lim = (false, c) := by
        simp only [check_rate_limit, hget, Option.getD_some]
        rw [if_pos (by omega)]
      rw [runRequests]
      simp only [hstep]
      obtain ⟨h1, h2⟩ := ih k c hc hk
      constructor
      · rw [h1]
        have hz : lim - k = 0 := by omega
        simp [hz, List.replicate_succ]
      · rw [h2]
        congr 2
        omega
    · have hstep : check_rate_limit c id t lim
          = (true, SimpleCache.set c ("rate_" ++ id) (k + 1) t (some 60)) := by
        simp only [check_rate_limit, hget, Option.getD_some]
        rw [if_neg (by omega)]
      have hc' : (SimpleCache.set c ("rate_" ++ id) (k + 1) t
          (some 60)).cache ("rate_" ++ id) = some (k + 1, t + 60) := by
        simp [SimpleCache.set]
      obtain ⟨h1, h2⟩ := ih (k + 1) _ hc' (by omega)
      rw [runRequests]
      simp only [hstep]
      constructor
      · rw [h1]
        have e1 : min (m + 1) (lim - k) = min m (lim - (k + 1)) + 1 := by omega
        have e2 : (m + 1) - (lim - k) = m - (lim - (k + 1)) := by omega
        rw [e1, e2, List.replicate_succ, List.cons_append]
      · rw [h2]
        congr 2
        omega

/-- C6: from an empty rate-limit cache, n requests by one identity inside a
single window (all at time t) are admitted for exactly the first lim requests
and denied for every request after that, and once the window has elapsed
(any time from t + 60 on, the expiry of the counter entry) the next request
is admitted again. -/
theorem c6_exact_limit_per_window (id : String) (n lim t t2 : Nat)
    (hlim : 1 ≤ lim) (ht2 : t + 60 ≤ t2) :
    (runRequests (SimpleCache.mkEmpty Nat 60) id (List.replicate n t) lim).1
      = List.replicate (min n lim) true ++ List.replicate (n - lim) false ∧
    (check_rate_limit
      ((runRequests (SimpleCache.mkEmpty Nat 60) id (List.replicate n t) lim).2)
      id t2 lim).1 = true := by
  cases n with
  | zero =>
    refine ⟨by simp [runRequests], ?_⟩
    simp only [List.replicate, runRequests, check_rate_limit, SimpleCache.get,
      SimpleCache.mkEmpty, Option.getD_none]
    rw [if_neg (by omega)]
  | succ m =>
    have hget : SimpleCache.get (SimpleCache.mkEmpty Nat 60) ("rate_" ++ id) t
        = (none, SimpleCache.mkEmpty Nat 60) := rfl
    have hstep : check_rate_limit (SimpleCache.mkEmpty Nat 60) id t lim
        = (true, SimpleCache.set (SimpleCache.mkEmpty Nat 60) ("rate_" ++ id)
            1 t (some 60)) := by
      simp only [check_rate_limit, hget, Option.getD_none]
      rw [if_neg (by omega)]
    have hc' : (SimpleCache.set (SimpleCache.mkEmpty Nat 60) ("rate_" ++ id)
        1 t (some 60)).cache ("rate_" ++ id) = some (1, t + 60) := by
      simp [SimpleCache.set]
    obtain ⟨h1, h2⟩ := runRequests_same_time id lim t m 1 _ hc' hlim
    rw [List.replicate_succ, runRequests]
    simp only [hstep]
    constructor
    · rw [h1]
      have e1 : min (m + 1) lim = min m (lim - 1) + 1 := by omega
      have e2 : (m + 1) - lim = m - (lim - 1) := by omega
      rw [e1, e2, List.replicate_succ, List.cons_append]
    · simp only [check_rate_limit, SimpleCache.get, h2]
      rw [if_neg (show ¬ t2 < t + 60 by omega)]
      simp only [Option.getD_none]
      rw [if_neg (by omega)]

/-- Witness for C6 at the spec's own test vector scaled to the 60-second
window: limit 3, five requests at time 0, then one more at time 61. -/
theorem c6_exact_limit_per_window_witness :
    ((1 : Nat) ≤ 3 ∧ (0 : Nat) + 60 ≤ 61) ∧
    ((runRequests (SimpleCache.mkEmpty Nat 60) "u" (List.replicate 5 0) 3).1
        = List.replicate (min 5 3) true ++ List.replicate (5 - 3) false ∧
      (check_rate_limit
        ((runRequests (SimpleCache.mkEmpty Nat 60) "u" (List.replicate 5 0) 3).2)
        "u" 61 3).1 = true) :=
  ⟨⟨by decide, by decide⟩,
   c6_exact_limit_per_window "u" 5 3 0 61 (by decide) (by decide)⟩

/-! ### Decimal digit strings (for C8, C9 and C10) -/

theorem natDigits_ne_nil (n : Nat) : natDigits n ≠ [] := by
  rw [natDigits]
  split_ifs with h <;> simp

theorem digitChar_facts : ∀ m < 10,
    (Nat.digitChar m).isDigit = true ∧
    (Nat.digitChar m).toLower = Nat.digitChar m ∧
    (Nat.digitChar m).isWhitespace = false ∧
    digitVal (Nat.digitChar m) = m := by decide

theorem natDigits_chars (n : Nat) : ∀ c ∈ natDigits n,
    c.isDigit = true ∧ c.toLower = c ∧ c.isWhitespace = false := by
  induction n using Nat.strong_induction_on with
  | _ n ih =>
    rw [natDigits]
    split_ifs with h
    · intro c hc
      simp only [List.mem_singleton] at hc
      subst hc
      obtain ⟨d1, d2, d3, _⟩ := digitChar_facts n h
      exact ⟨d1, d2, d3⟩
    · intro c hc
      rcases List.mem_append.mp hc with hc | hc
      · exact ih (n / 10) (Nat.div_lt_self (by omega) (by omega)) c hc
      · simp only [List.mem_singleton] at hc
        subst hc
        obtain ⟨d1, d2, d3, _⟩ := digitChar_facts (n % 10) (Nat.mod_lt n (by omega))
        exact ⟨d1, d2, d3⟩

theorem foldl_digitVal_natDigits (n : Nat) : ∀ i : Nat,
    (natDigits n).foldl (fun a c => a * 10 + digitVal c) i
      = i * 10 ^ (natDigits n).length + n := by
  induction n using Nat.strong_induction_on with
  | _ n ih =>
    intro i
    rw [natDigits]
    split_ifs with h
    · simp only [List.foldl_cons, List.foldl_nil, (digitChar_facts n h).2.2.2,
        List.length_singleton, pow_one]
    · rw [List.foldl_append, ih (n / 10) (Nat.div_lt_self (by omega) (by omega)) i]
      simp only [List.foldl_cons, List.foldl_nil,
        (digitChar_facts (n % 10) (Nat.mod_lt n (by omega))).2.2.2,
        List.length_append, List.length_singleton]
      have hdm : 10 * (n / 10) + n % 10 = n := Nat.div_add_mod n 10
      have hp : (10 : Nat) ^ ((natDigits (n / 10)).length + 1)
          = 10 ^ (natDigits (n / 10)).length * 10 := pow_succ 10 _
      nlinarith [hp, hdm]

theorem listToNat_natDigits (n : Nat) : listToNat (natDigits n) = n := by
  have := foldl_digitVal_natDigits n 0
  simpa [listToNat] using this

theorem toDigitsCore_eq_natDigits : ∀ (fuel n : Nat) (acc : List Char),
    n < fuel → Nat.toDigitsCore 10 fuel n acc = natDigits n ++ acc := by
  intro fuel
  induction fuel with
  | zero => intro n acc h; omega
  | succ fuel ih =>
    intro n acc h
    simp only [Nat.toDigitsCore]
    by_cases h10 : n / 10 = 0
    · rw [if_pos h10, natDigits, dif_pos (by omega)]
      have : n % 10 = n := Nat.mod_eq_of_lt (by omega)
      simp [this]
    · rw [if_neg h10]
      have hb : n / 10 < fuel := by omega
      rw [ih (n / 10) ((n % 10).digitChar :: acc) hb]
      conv_rhs => rw [natDigits]
      rw [dif_neg (show ¬ n < 10 by omega)]
      simp [List.append_assoc]

/-- The character list behind the string Nat.repr produces. -/
theorem repr_data (n : Nat) : (Nat.repr n).data = natDigits n := by
  show (Nat.toDigits 10 n).asString.data = natDigits n
  rw [Nat.toDigits, toDigitsCore_eq_natDigits (n + 1) n [] (by omega),
    List.append_nil]
  rfl

theorem dropWhile_eq_self_of_not (p : Char → Bool) (l : List Char)
    (h : ∀ c ∈ l, p c = false) : l.dropWhile p = l := by
  cases l with
  | nil => rfl
  | cons c cs => simp [List.dropWhile_cons, h c (List.mem_cons_self c cs)]

theorem pyStrip_eq_self (l : List Char) (h : ∀ c ∈ l, c.isWhitespace = false) :
    pyStrip l = l := by
  unfold pyStrip
  rw [dropWhile_eq_self_of_not _ _ h,
    dropWhile_eq_self_of_not _ _ (fun c hc => h c (List.mem_reverse.mp hc)),
    List.reverse_reverse]

theorem pyLower_eq_self (l : List Char) (h : ∀ c ∈ l, c.toLower = c) :
    pyLower l = l := by
  unfold pyLower
  rw [List.map_congr_left h]
  exact List.map_id' l

theorem takeWhile_append_of_all (p : Char → Bool) (l1 l2 : List Char)
    (h : ∀ c ∈ l1, p c = true) :
    (l1 ++ l2).takeWhile p = l1 ++ l2.takeWhile p := by
  induction l1 with
  | nil => simp
  | cons c cs ih =>
    rw [List.cons_append, List.takeWhile_cons, h c (List.mem_cons_self c cs)]
    simp only [if_true]
    rw [ih (fun x hx => h x (List.mem_cons_of_mem c hx)), List.cons_append]

/-- The regex pattern of parse_duration on a digit string followed by a
suffix: it matches exactly when the suffix is the pattern's one, and then
captures the number. -/
theorem matchIntSuffix_natDigits (n : Nat) (sfx : List Char)
    (htw : sfx.takeWhile Char.isDigit = []) (pat : List Char) :
    matchIntSuffix (natDigits n ++ sfx) pat
      = if sfx = pat then some n else none := by
  unfold matchIntSuffix
  rw [takeWhile_append_of_all _ _ _ (fun c hc => (natDigits_chars n c hc).1), htw,
    List.append_nil]
  have hne : (natDigits n).isEmpty = false := by
    cases hD : natDigits n with
    | nil => exact absurd hD (natDigits_ne_nil n)
    | cons a l => rfl
  simp only [hne, Bool.false_eq_true, if_false, List.drop_left,
    listToNat_natDigits]

/-- Lowercasing and stripping leave a digit string with a lowercase,
non-whitespace suffix unchanged. -/
theorem norm_digits_suffix (n : Nat) (sfx : List Char)
    (h : ∀ c ∈ sfx, c.toLower = c ∧ c.isWhitespace = false) :
    pyStrip (pyLower (natDigits n ++ sfx)) = natDigits n ++ sfx := by
  have hl : pyLower (natDigits n ++ sfx) = natDigits n ++ sfx :=
    pyLower_eq_self _ (fun c hc => by
      rcases List.mem_append.mp hc with hc | hc
      · exact (natDigits_chars n c hc).2.1
      · exact (h c hc).1)
  have hs : pyStrip (natDigits n ++ sfx) = natDigits n ++ sfx :=
    pyStrip_eq_self _ (fun c hc => by
      rcases List.mem_append.mp hc with hc | hc
      · exact (natDigits_chars n c hc).2.2
      · exact (h c hc).2)
  rw [hl, hs]

theorem parse_duration_repr_y (n : Nat) :
    parse_duration (Nat.repr n ++ "y") = n * 365 := by
  have hdata : (Nat.repr n ++ "y").data = natDigits n ++ ['y'] := by
    rw [String.data_append, repr_data]
  have hm := matchIntSuffix_natDigits n ['y'] (by decide)
  have hn := norm_digits_suffix n ['y'] (by decide)
  unfold parse_duration
  rw [hdata, hn]
  simp [durationPatterns, List.findSome?_cons, hm]

theorem parse_duration_repr_m (n : Nat) :
    parse_duration (Nat.repr n ++ "m") = n * 30 := by
  have hdata : (Nat.repr n ++ "m").data = natDigits n ++ ['m'] := by
    rw [String.data_append, repr_data]
  have hm := matchIntSuffix_natDigits n ['m'] (by decide)
  have hn := norm_digits_suffix n ['m'] (by decide)
  unfold parse_duration
  rw [hdata, hn]
  simp [durationPatterns, List.findSome?_cons, hm]

theorem parse_duration_repr_d (n : Nat) :
    parse_duration (Nat.repr n ++ "d") = n := by
  have hdata : (Nat.repr n ++ "d").data = natDigits n ++ ['d'] := by
    rw [String.data_append, repr_data]
  have hm := matchIntSuffix_natDigits n ['d'] (by decide)
  have hn := norm_digits_suffix n ['d'] (by decide)
  unfold parse_duration
  rw [hdata, hn]
  simp [durationPatterns, List.findSome?_cons, hm]

theorem parse_duration_repr_h (n : Nat) :
    parse_duration (Nat.repr n ++ "h") = n / 24 := by
  have hdata : (Nat.repr n ++ "h").data = natDigits n ++ ['h'] := by
    rw [String.data_append, repr_data]
  have hm := matchIntSuffix_natDigits n ['h'] (by decide)
  have hn := norm_digits_suffix n ['h'] (by decide)
  unfold parse_duration
  rw [hdata, hn]
  simp [durationPatterns, List.findSome?_cons, hm]

/-! ### Duration parsing and formatting claims (C8, C9, C10) -/

/-- C8: parse_duration maps 3m to exactly 90 days and 1y to exactly 365
days, and any input none of whose grammar patterns matches falls back to the
1-day default instead of failing. -/
theorem c8_parse_duration_examples (s : String)
    (h : ∀ p ∈ durationPatterns,
      matchIntSuffix (pyStrip (pyLower s.data)) p.1 = none) :
    parse_duration "3m" = 90 ∧ parse_duration "1y" = 365 ∧
    parse_duration s = 1 := by
  refine ⟨by decide, by decide, ?_⟩
  have hnone : durationPatterns.findSome?
      (fun p => (matchIntSuffix (pyStrip (pyLower s.data)) p.1).map p.2)
        = none := by
    rw [List.findSome?_eq_none_iff]
    intro p hp
    rw [h p hp]
    rfl
  simp only [parse_duration, hnone]

/-- Witness for C8 at the spec's unparseable example input bogus. -/
theorem c8_parse_duration_examples_witness :
    (∀ p ∈ durationPatterns,
      matchIntSuffix (pyStrip (pyLower ("bogus" : String).data)) p.1 = none) ∧
    (parse_duration "3m" = 90 ∧ parse_duration "1y" = 365 ∧
      parse_duration "bogus" = 1) :=
  ⟨by decide, c8_parse_duration_examples "bogus" (by decide)⟩

/-- C9: format_duration renders the largest applicable unit (years from 365
days, else months from 30 days, else days), and parse_duration inverts it at
the unit boundaries: exactly n years (n * 365 days), exactly n months
(n * 30 days, n < 13) and exactly n days (n < 30) round-trip for every
positive n. -/
theorem c9_format_parse_round_trip (d n : Nat) (hn : 1 ≤ n) :
    (365 ≤ d → format_duration d = Nat.repr (d / 365) ++ "y") ∧
    (30 ≤ d → d < 365 → format_duration d = Nat.repr (d / 30) ++ "m") ∧
    (d < 30 → format_duration d = Nat.repr d ++ "d") ∧
    parse_duration (format_duration (n * 365)) = n * 365 ∧
    (n < 13 → parse_duration (format_duration (n * 30)) = n * 30) ∧
    (n < 30 → parse_duration (format_duration n) = n) := by
  refine ⟨?_, ?_, ?_, ?_, ?_, ?_⟩
  · intro h365
    unfold format_duration
    rw [if_pos (by omega)]
  · intro h30 h365
    unfold format_duration
    rw [if_neg (by omega), if_pos (by omega)]
  · intro h30
    unfold format_duration
    rw [if_neg (by omega), if_neg (by omega)]
  · have hf : format_duration (n * 365) = Nat.repr n ++ "y" := by
      unfold format_duration
      rw [if_pos (by omega)]
      have hq : n * 365 / 365 = n := by omega
      rw [hq]
    rw [hf, parse_duration_repr_y]
  · intro h13
    have hf : format_duration (n * 30) = Nat.repr n ++ "m" := by
      unfold format_duration
      rw [if_neg (by omega), if_pos (by omega)]
      have hq : n * 30 / 30 = n := by omega
      rw [hq]
    rw [hf, parse_duration_repr_m]
  · intro h30
    have hf : format_duration n = Nat.repr n ++ "d" := by
      unfold format_duration
      rw [if_neg (by omega), if_neg (by omega)]
    rw [hf, parse_duration_repr_d]

/-- Witness for C9 at d = 400 (year-scale rendering) and n = 3 (three-year,
three-month and three-day round trips). -/
theorem c9_format_parse_round_trip_witness :
    (1 : Nat) ≤ 3 ∧
    ((365 ≤ 400 → format_duration 400 = Nat.repr (400 / 365) ++ "y") ∧
      (30 ≤ 400 → 400 < 365 → format_duration 400 = Nat.repr (400 / 30) ++ "m") ∧
      (400 < 30 → format_duration 400 = Nat.repr 400 ++ "d") ∧
      parse_duration (format_duration (3 * 365)) = 3 * 365 ∧
      (3 < 13 → parse_duration (format_duration (3 * 30)) = 3 * 30) ∧
      (3 < 30 → parse_duration (format_duration 3) = 3)) :=
  ⟨by decide, c9_format_parse_round_trip 400 3 (by decide)⟩

/-- C10: hour durations are truncated to whole days: any n followed by the
hour unit parses to n / 24 (floor) days; in particular 12h parses to a
zero-length duration, so a code created with it has expiresAt equal to its
creation time, while the generate_code default 24h parses to exactly 1 day. -/
theorem c10_hour_durations_truncate (n now : Nat) :
    parse_duration (Nat.repr n ++ "h") = n / 24 ∧
    parse_duration "12h" = 0 ∧
    (create_referral_code "H1H1H1H1" "9" now (parse_duration "12h") 1).expiresAt
      = (create_referral_code "H1H1H1H1" "9" now
          (parse_duration "12h") 1).createdAt ∧
    parse_duration "24h" = 1 := by
  refine ⟨parse_duration_repr_h n, by decide, ?_, by decide⟩
  have h12 : parse_duration "12h" = 0 := by decide
  simp [create_referral_code, h12]

end SoccerBot
